import Mathlib

/-!
Verification of the a2a_mcp_express.js task-dispatch core.

This file shallowly embeds, in Lean, the parts of the repository that the
frozen claims are about:

* the JSON value model and a parser standing for JavaScript's `JSON.parse`
  (used by `isToolCallJSON` and `executeToolFromJSON` in `src/server.ts`);
* the output classifier / directive parser (`isToolCallJSON`, the
  `tool`/`action` and `tool_input`/`action_input` alias extraction);
* the capability router (`executeToolFromJSON`, both the `src/server.ts`
  variant and the agent-module variant that carries the self-target
  redirect);
* the remote-agent response summary composition shared by
  `AskAnotherAgentTool._call` and `executeToolFromJSON`;
* the conversation memory manager (`src/agent/memory.ts`);
* the A2A endpoint handler (`router.post('/a2a/message')`) and the agent
  card read (`router.get('/.well-known/agent.json')`).

Fallible JavaScript operations are embedded as `Option`/`Except`; the
network (axios) and the reasoning engine (the LangChain agent executor)
are oracles passed in as function arguments; performed network calls are
tracked explicitly so that "no network call occurs" is a provable
statement.
-/

namespace A2AMCP

/-- JSON values as produced by `JSON.parse`.  Numbers keep their source
lexeme: none of the verified code computes with numeric values, it only
tests truthiness and re-serializes them. -/
inductive Json where
  | null
  | bool (b : Bool)
  | num (lexeme : String)
  | str (s : String)
  | arr (elems : List Json)
  | obj (fields : List (String × Json))
deriving Repr

/-- Whitespace skipped by `JSON.parse`: space, tab, newline, carriage return. -/
def skipWs : List Char → List Char
  | [] => []
  | c :: cs => if c = ' ' ∨ c = '\t' ∨ c = '\n' ∨ c = '\r' then skipWs cs else c :: cs

def hexVal (c : Char) : Option Nat :=
  if '0' ≤ c ∧ c ≤ '9' then some (c.toNat - '0'.toNat)
  else if 'a' ≤ c ∧ c ≤ 'f' then some (c.toNat - 'a'.toNat + 10)
  else if 'A' ≤ c ∧ c ≤ 'F' then some (c.toNat - 'A'.toNat + 10)
  else none

/-- Body of a JSON string literal, after the opening quote: JSON escape
sequences, rejection of raw control characters, terminated by `"`. -/
def parseStringBody (acc : String) : List Char → Option (String × List Char)
  | [] => none
  | c :: cs =>
    if c = '"' then some (acc, cs)
    else if c = '\\' then
      match cs with
      | [] => none
      | e :: cs2 =>
        if e = '"' then parseStringBody (acc.push '"') cs2
        else if e = '\\' then parseStringBody (acc.push '\\') cs2
        else if e = '/' then parseStringBody (acc.push '/') cs2
        else if e = 'b' then parseStringBody (acc.push (Char.ofNat 8)) cs2
        else if e = 'f' then parseStringBody (acc.push (Char.ofNat 12)) cs2
        else if e = 'n' then parseStringBody (acc.push '\n') cs2
        else if e = 'r' then parseStringBody (acc.push '\r') cs2
        else if e = 't' then parseStringBody (acc.push '\t') cs2
        else if e = 'u' then
          match cs2 with
          | h1 :: h2 :: h3 :: h4 :: cs3 =>
            match hexVal h1, hexVal h2, hexVal h3, hexVal h4 with
            | some a, some b, some c3, some d =>
              parseStringBody (acc.push (Char.ofNat (a * 4096 + b * 256 + c3 * 16 + d))) cs3
            | _, _, _, _ => none
          | _ => none
        else none
    else if c.toNat < 32 then none
    else parseStringBody (acc.push c) cs

/-- Longest prefix of decimal digits. -/
def takeDigits : List Char → (List Char × List Char)
  | [] => ([], [])
  | c :: cs =>
    if c.isDigit then
      let (d, r) := takeDigits cs
      (c :: d, r)
    else ([], c :: cs)

/-- A JSON number lexeme: `-? (0 | [1-9][0-9]*) (.[0-9]+)? ([eE][+-]?[0-9]+)?`. -/
def parseNumberLex (cs : List Char) : Option (String × List Char) :=
  let (sign, cs1) := match cs with
    | '-' :: r => ("-", r)
    | _ => ("", cs)
  match cs1 with
  | [] => none
  | c :: _ =>
    if ¬ c.isDigit then none
    else
      let (intDigits, cs2) := takeDigits cs1
      if intDigits.length > 1 ∧ intDigits.headD '0' = '0' then none
      else
        let fracRes : Option (String × List Char) :=
          match cs2 with
          | '.' :: r =>
            match takeDigits r with
            | ([], _) => none
            | (fd, r2) => some ("." ++ String.mk fd, r2)
          | _ => some ("", cs2)
        match fracRes with
        | none => none
        | some (frac, cs3) =>
          let expRes : Option (String × List Char) :=
            match cs3 with
            | e :: r =>
              if e = 'e' ∨ e = 'E' then
                let (es, r1) := match r with
                  | '+' :: r2 => ("+", r2)
                  | '-' :: r2 => ("-", r2)
                  | _ => ("", r)
                match takeDigits r1 with
                | ([], _) => none
                | (ed, r2) => some (String.mk [e] ++ es ++ String.mk ed, r2)
              else some ("", cs3)
            | [] => some ("", cs3)
          match expRes with
          | none => none
          | some (ex, cs4) => some (sign ++ String.mk intDigits ++ frac ++ ex, cs4)

/-- Match a literal keyword character by character. -/
def matchLit : List Char → List Char → Option (List Char)
  | [], cs => some cs
  | p :: ps, c :: cs => if p = c then matchLit ps cs else none
  | _ :: _, [] => none

/-- Insert a field, overwriting an earlier occurrence of the same key in
place — the semantics `JSON.parse` gives duplicate object keys. -/
def setField : List (String × Json) → String → Json → List (String × Json)
  | [], k, v => [(k, v)]
  | (k', v') :: fs, k, v =>
    if k' = k then (k, v) :: fs else (k', v') :: setField fs k v

mutual

/-- One JSON value, fuel-bounded recursive descent. -/
def parseValue : Nat → List Char → Option (Json × List Char)
  | 0, _ => none
  | Nat.succ fuel, cs =>
    match skipWs cs with
    | [] => none
    | c :: rest =>
      if c = '"' then
        match parseStringBody "" rest with
        | some (s, r) => some (.str s, r)
        | none => none
      else if c = '{' then
        match skipWs rest with
        | '}' :: r => some (.obj [], r)
        | cs1 => parseMembers fuel cs1 []
      else if c = '[' then
        match skipWs rest with
        | ']' :: r => some (.arr [], r)
        | cs1 => parseElems fuel cs1 []
      else if c = 't' then
        match matchLit ['r', 'u', 'e'] rest with
        | some r => some (.bool true, r)
        | none => none
      else if c = 'f' then
        match matchLit ['a', 'l', 's', 'e'] rest with
        | some r => some (.bool false, r)
        | none => none
      else if c = 'n' then
        match matchLit ['u', 'l', 'l'] rest with
        | some r => some (.null, r)
        | none => none
      else
        match parseNumberLex (c :: rest) with
        | some (lex, r) => some (.num lex, r)
        | none => none

/-- Members of an object, entered expecting a `"key": value` pair. -/
def parseMembers : Nat → List Char → List (String × Json) → Option (Json × List Char)
  | 0, _, _ => none
  | Nat.succ fuel, cs, acc =>
    match skipWs cs with
    | '"' :: cs1 =>
      match parseStringBody "" cs1 with
      | none => none
      | some (k, cs2) =>
        match skipWs cs2 with
        | ':' :: cs3 =>
          match parseValue fuel cs3 with
          | none => none
          | some (v, cs4) =>
            match skipWs cs4 with
            | ',' :: cs5 => parseMembers fuel cs5 (setField acc k v)
            | '}' :: cs5 => some (.obj (setField acc k v), cs5)
            | _ => none
        | _ => none
    | _ => none

/-- Elements of an array, entered expecting a value. -/
def parseElems : Nat → List Char → List Json → Option (Json × List Char)
  | 0, _, _ => none
  | Nat.succ fuel, cs, acc =>
    match parseValue fuel cs with
    | none => none
    | some (v, cs1) =>
      match skipWs cs1 with
      | ',' :: cs2 => parseElems fuel cs2 (acc ++ [v])
      | ']' :: cs2 => some (.arr (acc ++ [v]), cs2)
      | _ => none

end

/-- Embedding of `JSON.parse` as a total function: `none` is the thrown `SyntaxError`. -/
def jsonParse (s : String) : Option Json :=
  let cs := s.toList
  match parseValue (2 * cs.length + 8) cs with
  | some (v, rest) => if skipWs rest = [] then some v else none
  | none => none

/-! ### JavaScript value semantics needed by the dispatch code -/

/-- Field lookup in an object's field list (keys are unique by parser
construction). -/
def lookupField : List (String × Json) → String → Option Json
  | [], _ => none
  | (k', v) :: fs, k => if k' = k then some v else lookupField fs k

/-- Property read `v.k`: `none` models JavaScript `undefined` (a read on a
non-object yields `undefined`; the null case is handled at each call site,
where a read on `null` throws). -/
def jsField (v : Json) (k : String) : Option Json :=
  match v with
  | .obj fs => lookupField fs k
  | _ => none

/-- JavaScript truthiness of a number lexeme: zero in any spelling
(`0`, `-0`, `0.0`, `0e5`) is falsy. -/
def numLexTruthy (lex : String) : Bool :=
  lex.toList.any (fun c => c.isDigit && c ≠ '0')

/-- JavaScript truthiness. -/
def Json.truthy : Json → Bool
  | .null => false
  | .bool b => b
  | .num lex => numLexTruthy lex
  | .str s => s ≠ ""
  | .arr _ => true
  | .obj _ => true

/-- Truthiness of a possibly-`undefined` value. -/
def jsTruthyOpt : Option Json → Bool
  | none => false
  | some v => v.truthy

/-- JavaScript `a || b` on possibly-`undefined` values. -/
def jsOrOpt (a b : Option Json) : Option Json :=
  if jsTruthyOpt a then a else b

/-- JavaScript `a || b || c` where `c` is a definite value
(the `parsed.tool_input || parsed.action_input || {}` shape). -/
def jsOr3 (a b : Option Json) (c : Json) : Json :=
  if jsTruthyOpt a then a.getD c else if jsTruthyOpt b then b.getD c else c

def digitChar (n : Nat) : Char := Char.ofNat ('0'.toNat + n)

def natLexCore : Nat → Nat → List Char
  | 0, _ => []
  | fuel + 1, n =>
    if n < 10 then [digitChar n]
    else natLexCore fuel (n / 10) ++ [digitChar (n % 10)]

/-- Decimal rendering of a natural number (the value of `xs.length` as a
JavaScript number lexeme). -/
def natLex (n : Nat) : String := String.mk (natLexCore (n + 1) n)

/-- The `length` property as JavaScript exposes it on parsed JSON values:
arrays and strings have a numeric `length`, plain objects only what they
carry as a field, everything else `undefined`. -/
def jsLengthVal : Json → Option Json
  | .arr xs => some (.num (natLex xs.length))
  | .str s => some (.num (natLex s.length))
  | .obj fs => lookupField fs "length"
  | _ => none

/-- Optional chaining `x?.k`: `undefined` on an absent or `null` receiver, otherwise the
property. -/
def optChainField (o : Option Json) (k : String) : Option Json :=
  match o with
  | none => none
  | some .null => none
  | some v => jsField v k

mutual

/-- String coercion as used by template literals and `String(x)`. -/
def Json.display : Json → String
  | .null => "null"
  | .bool b => if b then "true" else "false"
  | .num lex => lex
  | .str s => s
  | .arr xs => displayElems xs true
  | .obj _ => "[object Object]"

/-- Coercion via `Array.prototype.toString`: elements joined by commas, `null`
elements shown as empty. -/
def displayElems : List Json → Bool → String
  | [], _ => ""
  | x :: xs, first =>
    (if first then "" else ",") ++
      (match x with
       | .null => ""
       | v => v.display) ++
      displayElems xs false

end

/-- Coercion of a possibly-`undefined` value, as in `${x}` and `x += y`. -/
def jsDisplayU : Option Json → String
  | none => "undefined"
  | some v => v.display

def hexDigitChar (n : Nat) : Char :=
  if n < 10 then Char.ofNat ('0'.toNat + n) else Char.ofNat ('a'.toNat + n - 10)

/-- Escaping used by `JSON.stringify` for string values. -/
def escapeJsonChar (c : Char) : String :=
  if c = '"' then "\\\""
  else if c = '\\' then "\\\\"
  else if c = '\n' then "\\n"
  else if c = '\r' then "\\r"
  else if c = '\t' then "\\t"
  else if c = Char.ofNat 8 then "\\b"
  else if c = Char.ofNat 12 then "\\f"
  else if c.toNat < 32 then
    "\\u00" ++ String.mk [hexDigitChar (c.toNat / 16), hexDigitChar (c.toNat % 16)]
  else String.singleton c

def escapeJsonString (s : String) : String :=
  "\"" ++ String.join (s.toList.map escapeJsonChar) ++ "\""

mutual

/-- Embedding of `JSON.stringify` on parsed JSON values (no `undefined` can occur
inside such a value). -/
def Json.stringify : Json → String
  | .null => "null"
  | .bool b => if b then "true" else "false"
  | .num lex => lex
  | .str s => escapeJsonString s
  | .arr xs => "[" ++ stringifyElems xs true ++ "]"
  | .obj fs => "\x7b" ++ stringifyFields fs true ++ "\x7d"

def stringifyElems : List Json → Bool → String
  | [], _ => ""
  | x :: xs, first =>
    (if first then "" else ",") ++ x.stringify ++ stringifyElems xs false

def stringifyFields : List (String × Json) → Bool → String
  | [], _ => ""
  | (k, v) :: fs, first =>
    (if first then "" else ",") ++ escapeJsonString k ++ ":" ++ v.stringify ++
      stringifyFields fs false

end

/-- Coercion for `result += JSON.stringify(x)` where `x` may be `undefined`:
`JSON.stringify(undefined)` is `undefined`, which `+=` renders as the
text `undefined`. -/
def jsStringifyU : Option Json → String
  | none => "undefined"
  | some v => v.stringify

/-! ### Output classifier and directive parser (`isToolCallJSON` and the
alias extraction inside `executeToolFromJSON`, src/server.ts) -/

/-- Test `parsed.f && typeof parsed.f === "string"`: the field is present, a
string, and truthy (non-empty). -/
def strTruthyField (o : Option Json) : Bool :=
  match o with
  | some (.str s) => s ≠ ""
  | _ => false

/-- Embedding of `isToolCallJSON` (src/server.ts:210-220).  Total: a `JSON.parse`
failure is caught and yields `false`; a parsed `null` makes the member
access throw, which the same catch turns into `false` (here: `jsField`
on a non-object is `undefined`, giving the same `false`). -/
def isToolCallJSON (output : String) : Bool :=
  match jsonParse output with
  | none => false
  | some v => strTruthyField (jsField v "tool") || strTruthyField (jsField v "action")

/-- The structured directive the spec's Parser produces. -/
structure Directive where
  capabilityName : String
  arguments : Json
deriving Repr

/-- Resolution `parsed.tool || parsed.action` (src/server.ts:226). -/
def resolvedToolName (v : Json) : Option Json :=
  jsOrOpt (jsField v "tool") (jsField v "action")

/-- Resolution `parsed.tool_input || parsed.action_input || \x7b\x7d` (src/server.ts:283). -/
def resolvedToolArgs (v : Json) : Json :=
  jsOr3 (jsField v "tool_input") (jsField v "action_input") (.obj [])

/-- The classifier/parser as one function: a directive when
`isToolCallJSON` accepts the string and the resolved capability name is a
string, otherwise nothing (the caller keeps the text as the final
answer). -/
def parseDirective (s : String) : Option Directive :=
  if isToolCallJSON s then
    match jsonParse s with
    | some v =>
      match resolvedToolName v with
      | some (.str n) => some ⟨n, resolvedToolArgs v⟩
      | _ => none
    | none => none
  else none

/-! ### Remote agent client: response summary composition
(shared text of AskAnotherAgentTool._call and executeToolFromJSON) -/

/-- Test `p.type === "text"`. -/
def isTextPart (p : Json) : Bool :=
  match jsField p "type" with
  | some (.str t) => t = "text"
  | _ => false

/-- The summary built from a peer's response Task:

    let result = `Response from ${target} (${responseTask.status.state}): `;
    if (responseTask.status.message?.parts?.length) {
      const text = parts.find(p => p.type === 'text')?.content
          ?? JSON.stringify(parts[0].content);
      result += text;
    } else if (responseTask.artifacts?.length) {
      result += `Artifacts: ${responseTask.artifacts.length}`;
    }

`none` models a TypeError thrown out of the composition (reading `state`
through an absent `status`, or calling `.find` on a non-array), which the
surrounding catch converts to an error string.  The body, once a non-null
`status` value has been read, is split out for reuse in statements. -/
def composeSummaryBody (target : String) (tv sv : Json) : Option String :=
  let base := "Response from " ++ target ++ " (" ++
    jsDisplayU (jsField sv "state") ++ "): "
  let partsVal : Option Json := optChainField (jsField sv "message") "parts"
  let partsLenTruthy : Bool := jsTruthyOpt (partsVal.bind jsLengthVal)
  if partsLenTruthy then
    match partsVal with
    | some (.arr ps) =>
      let foundContent : Option Json :=
        match ps.find? isTextPart with
        | none => none
        | some p => jsField p "content"
      let appended : String :=
        match foundContent with
        | some .null | none =>
          (match ps with
           | p0 :: _ => jsStringifyU (jsField p0 "content")
           | [] => "")
        | some v => v.display
      some (base ++ appended)
    | _ => none
  else
    let artVal := jsField tv "artifacts"
    let artLenTruthy : Bool := jsTruthyOpt (artVal.bind jsLengthVal)
    if artLenTruthy then
      match artVal with
      | some av => some (base ++ "Artifacts: " ++ jsDisplayU (jsLengthVal av))
      | none => some base
    else some base

/-- The summary of a peer response Task (see `composeSummaryBody`). -/
def composeA2ASummary (target : String) (task : Json) : Option String :=
  match task with
  | .null => none
  | tv =>
    match jsField tv "status" with
    | none => none
    | some .null => none
    | some sv => composeSummaryBody target tv sv

/-! ### Capability router (`executeToolFromJSON`) -/

/-- Outcome of `axios.post` to a peer: a response Task, an HTTP error
response carrying a data payload, or a network-level failure with only a
message (timeout, connection refused). -/
inductive PostOutcome where
  | ok (data : Json)
  | errResp (data : Json)
  | errMsg (msg : String)

/-- The network oracle: what posting the given body to
`target ++ "/a2a/message"` returns. -/
abbrev PostOracle := String → Json → PostOutcome

/-- A router result: the text returned to the caller plus the list of
target base URLs a task-send POST was issued to. -/
structure ExecResult where
  text : String
  posts : List String
deriving Repr

/-- Placeholder for the message text of a caught `SyntaxError`
(`e.message` of a `JSON.parse` failure); no claim depends on its
wording. -/
def tsSyntaxErrorMsg : String := "Unexpected token"

/-- Placeholder for the message text of a caught `TypeError`; no claim
depends on its wording. -/
def tsTypeErrorMsg : String := "TypeError"

/-- The outbound task envelope built for a delegation
(src/server.ts:241-251): one user message with one `text` part carrying
the task input. -/
def a2aRequestBody (taskId : String) (taskInput : Json) : Json :=
  .obj [("task", .obj
    [("id", .str taskId),
     ("message", .obj
       [("role", .str "user"),
        ("parts", .arr [.obj [("type", .str "text"), ("content", taskInput)]])])])]

/-- The delegation step both routers perform once the target and task
input have been resolved: validate the required parameters, build the
task envelope, POST it, and convert every failure into text (the
per-router missing-parameter message is passed in). -/
def delegateToAgent (post : PostOracle) (freshTaskId : String)
    (target1 taskInput : Option Json) (missingMsg : String) : ExecResult :=
  if ¬ jsTruthyOpt target1 ∨ ¬ jsTruthyOpt taskInput then ⟨missingMsg, []⟩
  else
    let target := jsDisplayU target1
    let body := a2aRequestBody freshTaskId (taskInput.getD .null)
    let summaryText : String :=
      match post target body with
      | .ok data =>
        match composeA2ASummary target data with
        | some r => r
        | none => "Error communicating with agent " ++ target ++ ". " ++ tsTypeErrorMsg
      | .errResp data =>
        "Error communicating with agent " ++ target ++ ". " ++ data.stringify
      | .errMsg m => "Error communicating with agent " ++ target ++ ". " ++ m
    ⟨summaryText, [target]⟩

/-- Embedding of `executeToolFromJSON` (src/server.ts:223-296): the direct-dispatch
router used by `processWithAgent`.  Every throwing operation is inside
the outer try, whose catch returns `"Error executing tool: ..."`; the
delegation's own try/catch returns `"Error communicating with agent ..."`.
No self-target substitution is performed here. -/
def executeToolFromJSON (post : PostOracle) (mcpNames : List String)
    (mcpInvoke : String → Json → Except String String) (freshTaskId : String)
    (jsonOutput : String) : ExecResult :=
  match jsonParse jsonOutput with
  | none => ⟨"Error executing tool: " ++ tsSyntaxErrorMsg, []⟩
  | some .null => ⟨"Error executing tool: " ++ tsTypeErrorMsg, []⟩
  | some v =>
    match resolvedToolName v with
    | some (.str t) =>
      if t = "ask_another_a2a_agent" then
        delegateToAgent post freshTaskId (jsField v "targetAgentId") (jsField v "taskInput")
          "Error: Missing required parameters for ask_another_a2a_agent"
      else if t.startsWith "mcp_" then
        if mcpNames.contains t then
          match mcpInvoke t (resolvedToolArgs v) with
          | .ok r => ⟨r, []⟩
          | .error m => ⟨"Error executing tool: " ++ m, []⟩
        else ⟨"Error: MCP tool \x27" ++ t ++ "\x27 not found", []⟩
      else ⟨"Error: Unknown tool \x27" ++ t ++ "\x27", []⟩
    | _ =>
      -- a non-string (or absent) resolved name: `toolName === '...'` is
      -- false and `toolName.startsWith` throws, caught by the outer catch
      ⟨"Error executing tool: " ++ tsTypeErrorMsg, []⟩

/-- Test whether a possibly-absent value is exactly the given string. -/
def isStrVal (o : Option Json) (s : String) : Bool :=
  match o with
  | some (.str t) => t = s
  | _ => false

/-- Embedding of the `executeToolFromJSON` of the agent module (src/unnamed/part_000,
lines 111-209): looks the tool up in the registered tool list first, then
applies the hard-coded self-target substitution
`'http://agent1.localhost' → 'http://agent2.localhost'` before the
required-parameter check and the delegation. -/
def executeToolFromJSONAgent (post : PostOracle) (toolNames : List String)
    (invokeTool : String → Json → Except String String) (freshTaskId : String)
    (jsonOutput : String) : ExecResult :=
  match jsonParse jsonOutput with
  | none => ⟨"Error executing tool: " ++ tsSyntaxErrorMsg, []⟩
  | some .null => ⟨"Error executing tool: " ++ tsTypeErrorMsg, []⟩
  | some v =>
    let toolName := resolvedToolName v
    if ¬ jsTruthyOpt toolName then ⟨"Error: No tool name found in the response.", []⟩
    else
      match toolName with
      | some (.str t) =>
        if toolNames.contains t then
          if t = "ask_another_a2a_agent" then
            delegateToAgent post freshTaskId
              (if isStrVal (jsField v "targetAgentId") "http://agent1.localhost"
               then some (.str "http://agent2.localhost") else jsField v "targetAgentId")
              (jsField v "taskInput")
              "Error: Missing required parameters for ask_another_a2a_agent (targetAgentId, taskInput)"
          else
            match invokeTool t (resolvedToolArgs v) with
            | .ok r => ⟨r, []⟩
            | .error m => ⟨"Error executing tool: " ++ m, []⟩
        else ⟨"Error: Tool \x27" ++ t ++ "\x27 not found", []⟩
      | _ => ⟨"Error: Tool \x27" ++ jsDisplayU toolName ++ "\x27 not found", []⟩

/-! ### Conversation memory manager (src/agent/memory.ts, part_007) -/

/-- An association store of conversation id to message history — the shape
of both `conversationMemoryStore` and the redis session space. -/
abbrev Store := List (String × List String)

def storeGet : Store → String → Option (List String)
  | [], _ => none
  | (k, h) :: rest, c => if k = c then some h else storeGet rest c

def storeSet : Store → String → List String → Store
  | [], c, h => [(c, h)]
  | (k, h') :: rest, c, h =>
    if k = c then (c, h) :: rest else (k, h') :: storeSet rest c h

def storeErase : Store → String → Store
  | [], _ => []
  | (k, h) :: rest, c => if k = c then storeErase rest c else (k, h) :: storeErase rest c

/-- The message history recorded under a conversation id (empty when no
entry exists — exactly what a fresh read would observe). -/
def historyAt (st : Store) (c : String) : List String :=
  (storeGet st c).getD []

/-- The configured memory backend (`config.memory`). -/
inductive MemType where
  | redis
  | memory
deriving DecidableEq, Repr

structure MemConfig where
  type : MemType
  redisUrl : Option String
deriving Repr

/-- A chat-history handle as `getMemoryForConversation` can hand out:
redis-backed for a session id, the in-process store entry for a
conversation id, or a fresh unkeyed `ChatMessageHistory` identified by
its allocation index. -/
inductive ChatHandle where
  | redisH (sessionId : String)
  | localKeyed (convId : String)
  | localFresh (idx : Nat)
deriving DecidableEq, Repr

/-- Memory-manager state: the in-process `conversationMemoryStore`, the
heap of fresh unkeyed histories, and the redis backend's sessions. -/
structure MemState where
  store : Store
  freshHeap : List (List String)
  redis : Store
deriving Repr

/-- The body of `createRedisChatMessageHistory` before its catch: throws
when no redis URL is configured, otherwise constructs the redis-backed
handle (the URL is not contacted at construction time). -/
def createRedisBody (cfg : MemConfig) (conversationId : String) (st : MemState) :
    Except String (ChatHandle × MemState) :=
  match cfg.redisUrl with
  | none => .error "Redis URL is not configured"
  | some _ => .ok (.redisH conversationId, st)

def tryCatchE (body : Except String α) (handler : String → Except String α) :
    Except String α :=
  match body with
  | .ok a => .ok a
  | .error e => handler e

/-- Embedding of `createRedisChatMessageHistory` (part_007:13-33): its catch allocates
a fresh, unkeyed in-process `ChatMessageHistory`. -/
def createRedisChatMessageHistoryE (cfg : MemConfig) (conversationId : String)
    (st : MemState) : Except String (ChatHandle × MemState) :=
  tryCatchE (createRedisBody cfg conversationId st)
    (fun _ =>
      .ok (.localFresh st.freshHeap.length, { st with freshHeap := st.freshHeap ++ [[]] }))

/-- Embedding of `getMemoryForConversation` (part_007:38-73) with every throwing
operation kept explicit: the redis branch's own catch (which would fall
back to a keyed store entry) is only reachable if construction throws
past `createRedisChatMessageHistory`'s catch. -/
def getMemoryForConversationE (cfg : MemConfig) (conversationId : String)
    (st : MemState) : Except String (ChatHandle × MemState) :=
  match cfg.type with
  | .redis =>
    tryCatchE (createRedisChatMessageHistoryE cfg conversationId st)
      (fun _ =>
        match storeGet st.store conversationId with
        | some _ => .ok (.localKeyed conversationId, st)
        | none =>
          .ok (.localKeyed conversationId,
               { st with store := storeSet st.store conversationId [] }))
  | .memory =>
    match storeGet st.store conversationId with
    | some _ => .ok (.localKeyed conversationId, st)
    | none =>
      .ok (.localKeyed conversationId,
           { st with store := storeSet st.store conversationId [] })

/-- Append a message through a handle.  Redis handles defer connection to
use time: with the backend unreachable (`redisUp = false`) the append
rejects. -/
def memAppend (redisUp : Bool) (st : MemState) (h : ChatHandle) (msg : String) :
    Except String MemState :=
  match h with
  | .redisH sid =>
    if redisUp then
      .ok { st with redis := storeSet st.redis sid (historyAt st.redis sid ++ [msg]) }
    else .error "connect ECONNREFUSED"
  | .localKeyed c =>
    .ok { st with store := storeSet st.store c (historyAt st.store c ++ [msg]) }
  | .localFresh i =>
    .ok { st with freshHeap := st.freshHeap.set i ((st.freshHeap.getD i []) ++ [msg]) }

/-- Read the history through a handle. -/
def memRead (redisUp : Bool) (st : MemState) (h : ChatHandle) :
    Except String (List String) :=
  match h with
  | .redisH sid => if redisUp then .ok (historyAt st.redis sid) else .error "connect ECONNREFUSED"
  | .localKeyed c => .ok (historyAt st.store c)
  | .localFresh i => .ok (st.freshHeap.getD i [])

/-- Embedding of `clearMemoryForConversation` (part_007:78-102). -/
def clearMemoryForConversation (cfg : MemConfig) (redisUp : Bool)
    (conversationId : String) (st : MemState) : MemState :=
  match cfg.type with
  | .redis =>
    match createRedisChatMessageHistoryE cfg conversationId st with
    | .ok (.redisH sid, st1) =>
      if redisUp then { st1 with redis := storeErase st1.redis sid }
      else { st1 with store := storeErase st1.store conversationId }
    | .ok (.localFresh i, st1) => { st1 with freshHeap := st1.freshHeap.set i [] }
    | .ok (.localKeyed c, st1) => { st1 with store := storeErase st1.store c }
    | .error _ => st
  | .memory => { st with store := storeErase st.store conversationId }

/-! ### A2A endpoint state machine (README route `router.post('/a2a/message')`
plus `processWithAgent`, src/server.ts:162-207).  The endpoint model
instantiates the in-process transient memory backend — the backend behind
the claims about the transient conversation handle. -/

/-- Outcome of the reasoning-engine invocation (`agentExecutor.invoke`
plus the not-initialized early return, both of which `processWithAgent`
converts into its error result). -/
inductive EngineOut where
  | ok (out : String)
  | err (msg : String)

/-- The reasoning-engine oracle: conversation id and input to outcome. -/
abbrev Engine := String → String → EngineOut

structure ProcOut where
  isError : Bool
  text : String
deriving Repr

/-- Embedding of `processWithAgent` (src/server.ts:162-207): bind memory to the
conversation, invoke the engine, and when the output is a tool-call JSON,
replace the reply by the router's result.  On engine success the executor
saves the turn (input and raw output) into the conversation history; the
router never throws, so the catch fires only for the engine invocation
itself. -/
def processWithAgent (eng : Engine) (post : PostOracle) (mcpNames : List String)
    (mcpInvoke : String → Json → Except String String) (freshTaskId : String)
    (st : Store) (userPrompt conversationId : String) :
    ProcOut × Store × List String :=
  let st1 := match storeGet st conversationId with
    | some _ => st
    | none => storeSet st conversationId []
  match eng conversationId userPrompt with
  | .err m => ({ isError := true, text := "Agent execution error: " ++ m }, st1, [])
  | .ok out =>
    let st2 := storeSet st1 conversationId (historyAt st1 conversationId ++ [userPrompt, out])
    if isToolCallJSON out then
      let r := executeToolFromJSON post mcpNames mcpInvoke freshTaskId out
      ({ isError := false, text := r.text }, st2, r.posts)
    else ({ isError := false, text := out }, st2, [])

def reqTaskVal (body : Json) : Option Json := optChainField (some body) "task"

/-- Read of `requestBody?.task?.id`. -/
def reqTaskId (body : Json) : Option Json := optChainField (reqTaskVal body) "id"

/-- Read of `requestBody.task.message?.parts`. -/
def reqParts (body : Json) : Option Json :=
  optChainField (optChainField (reqTaskVal body) "message") "parts"

/-- The route's validation: `!requestBody?.task?.id ||
!requestBody.task.message?.parts?.length` rejects the request. -/
def validA2ARequest (body : Json) : Bool :=
  jsTruthyOpt (reqTaskId body) && jsTruthyOpt ((reqParts body).bind jsLengthVal)

def isDataPart (p : Json) : Bool :=
  match jsField p "type" with
  | some (.str t) => t = "data"
  | _ => false

/-- Result of the primary-input extraction inside the route's try block. -/
inductive ExtractOut where
  | ok (input : String)
  | thrownNoPart
  | thrownType
deriving Repr

/-- Extract the primary input: the first `text` part's content coerced to
a string, else the first `data` part's content JSON-serialized, else the
route throws `"No suitable 'text' or 'data' part found..."`; calling
`.find` on a non-array `parts` value throws a TypeError. -/
def extractA2AInput (body : Json) : ExtractOut :=
  match reqParts body with
  | some (.arr ps) =>
    match ps.find? isTextPart with
    | some tp => .ok (jsDisplayU (jsField tp "content"))
    | none =>
      match ps.find? isDataPart with
      | some dp => .ok (jsStringifyU (jsField dp "content"))
      | none => .thrownNoPart
  | _ => .thrownType

/-- The transient conversation id the route derives:
`` `a2a-task-${taskId}` ``. -/
def derivedConvId (body : Json) : String :=
  "a2a-task-" ++ jsDisplayU (reqTaskId body)

/-- The response Task as the route builds it: an id, a status state, and
the single text part of the status message. -/
structure A2AResponseT where
  id : Json
  state : String
  text : String
deriving Repr

/-- Everything observable about one handling of a `tasks/send` request. -/
structure HandlerOut where
  httpStatus : Nat
  resp : A2AResponseT
  store : Store
  engineCalled : Bool
  posts : List String
deriving Repr

/-- Embedding of the route `router.post("/a2a/message")` (the A2A endpoint state machine):
validate, derive the transient conversation, extract the input, run
`processWithAgent`, release the conversation, and build the response
Task.  An exception inside the try (input extraction) is caught into a
500 `failed` response; both the completed and the engine-fault responses
are sent with HTTP 200 by `res.status(200)`. -/
def handleA2AMessage (eng : Engine) (post : PostOracle) (mcpNames : List String)
    (mcpInvoke : String → Json → Except String String)
    (freshTaskId freshValidationId : String) (st : Store) (body : Json) : HandlerOut :=
  if ¬ validA2ARequest body then
    { httpStatus := 400,
      resp := { id := if jsTruthyOpt (reqTaskId body)
                      then (reqTaskId body).getD .null
                      else .str freshValidationId,
                state := "failed",
                text := "Invalid tasks/send request format." },
      store := st, engineCalled := false, posts := [] }
  else
    let taskId := (reqTaskId body).getD .null
    let tempConv := "a2a-task-" ++ taskId.display
    match extractA2AInput body with
    | .thrownNoPart =>
      { httpStatus := 500,
        resp := { id := taskId, state := "failed",
                  text := "Internal Server Error: No suitable \x27text\x27 or \x27data\x27 part found in incoming A2A message." },
        store := st, engineCalled := false, posts := [] }
    | .thrownType =>
      { httpStatus := 500,
        resp := { id := taskId, state := "failed",
                  text := "Internal Server Error: " ++ tsTypeErrorMsg },
        store := st, engineCalled := false, posts := [] }
    | .ok agentInput =>
      let r := processWithAgent eng post mcpNames mcpInvoke freshTaskId st agentInput tempConv
      let st3 := storeErase r.2.1 tempConv
      if r.1.isError then
        { httpStatus := 200,
          resp := { id := taskId, state := "failed",
                    text := "Task processing failed: " ++ r.1.text },
          store := st3, engineCalled := true, posts := r.2.2 }
      else
        { httpStatus := 200,
          resp := { id := taskId, state := "completed", text := r.1.text },
          store := st3, engineCalled := true, posts := r.2.2 }

/-! ### Agent card endpoint (README route `router.get('/.well-known/agent.json')`) -/

structure AgentCapabilities where
  streaming : Bool
  pushNotifications : Bool
  stateTransitionHistory : Bool
deriving DecidableEq, Repr

/-- The configuration fields the card read consumes. -/
structure ServerConfig where
  name : String
  description : String
  baseUrl : String
  a2aVersion : String
  skills : List Json
deriving Repr

structure AgentCard where
  name : String
  description : String
  url : String
  version : String
  capabilities : AgentCapabilities
  skills : List Json
  taskEndpointSend : String
deriving Repr

/-- The card as the route builds it: configuration fields copied through,
all three capability flags hard-coded `false`, the send endpoint
hard-coded `"/a2a/message"`. -/
def buildAgentCard (cfg : ServerConfig) : AgentCard :=
  { name := cfg.name
    description := cfg.description
    url := cfg.baseUrl
    version := cfg.a2aVersion
    capabilities :=
      { streaming := false, pushNotifications := false, stateTransitionHistory := false }
    skills := cfg.skills
    taskEndpointSend := "/a2a/message" }

/-- The GET handler: a pure read that passes any ambient state through
untouched. -/
def handleAgentCardGet (cfg : ServerConfig) (st : Store) : AgentCard × Store :=
  (buildAgentCard cfg, st)

/-! ### Shipped deployment configurations (src/unnamed/part_005 and
src/agent2-config.yml) -/

/-- agent1's configured own identifier (`server.baseUrl` in part_005). -/
def agent1BaseUrl : String := "http://agent1.localhost"

/-- agent1's configured known peer (`a2a.knownAgents` in part_005). -/
def agent1KnownPeerBaseUrl : String := "http://agent2.localhost"

/-- agent2's configured own identifier (`server.baseUrl` in
agent2-config.yml). -/
def agent2BaseUrl : String := "http://agent2.localhost"

/-- agent2's configured known peer (`a2a.knownAgents` in
agent2-config.yml). -/
def agent2KnownPeerBaseUrl : String := "http://agent1.localhost"

/-! ### Shared concrete fixtures for witnesses and counterexamples -/

/-- A network oracle on which every task-send POST times out. -/
def timeoutPost : PostOracle := fun _ _ => .errMsg "timeout of 15000ms exceeded"

/-- A local-capability oracle whose every invocation succeeds. -/
def okInvoke : String → Json → Except String String := fun _ _ => .ok "tool result"

/-- The text part of the end-to-end example peer response. -/
def peerTextPart : Json := .obj [("type", .str "text"), ("content", .str "4")]

/-- The status record of the end-to-end example peer response. -/
def peerTaskStatusOK : Json :=
  .obj [("state", .str "completed"),
        ("message", .obj [("role", .str "assistant"), ("parts", .arr [peerTextPart])])]

/-- The end-to-end example peer response Task. -/
def peerTaskOK : Json := .obj [("id", .str "p1"), ("status", peerTaskStatusOK)]

/-- A network oracle on which every task-send POST succeeds with the
example peer response. -/
def okPost : PostOracle := fun _ _ => .ok peerTaskOK

/-- The reasoning-engine output delegating 2+2 to the peer. -/
def askPeerDirective : String :=
  "\x7b\"tool\":\"ask_another_a2a_agent\",\"targetAgentId\":\"http://peer\",\"taskInput\":\"2+2\"\x7d"

/-- An engine oracle that always emits the peer delegation directive. -/
def directiveEngine : Engine := fun _ _ => .ok askPeerDirective

/-- A well-formed inbound tasks/send body with id t1 and one text part. -/
def sampleTaskBody : Json :=
  .obj [("task", .obj
    [("id", .str "t1"),
     ("message", .obj
       [("role", .str "user"),
        ("parts", .arr [.obj [("type", .str "text"),
                              ("content", .str "Ask peer to calculate 2+2")]])])])]

/-- A reasoning-engine output that is not JSON but contains a
directive-like substring. -/
def nonJsonChatter : String := "He said \"tool\": \"x\" but that was not JSON"

/-- An engine oracle that always emits the non-JSON chatter. -/
def chatterEngine : Engine := fun _ _ => .ok nonJsonChatter

/-! ### Helper lemmas -/

theorem storeGet_erase (st : Store) (c : String) : storeGet (storeErase st c) c = none := by
  induction st with
  | nil => rfl
  | cons kv rest ih =>
    obtain ⟨k, h⟩ := kv
    by_cases hk : k = c
    · simpa [storeErase, hk] using ih
    · simp [storeErase, storeGet, hk, ih]

theorem historyAt_erase (st : Store) (c : String) : historyAt (storeErase st c) c = [] := by
  simp [historyAt, storeGet_erase]

theorem storeGet_set (st : Store) (c : String) (h : List String) :
    storeGet (storeSet st c h) c = some h := by
  induction st with
  | nil => simp [storeSet, storeGet]
  | cons kv rest ih =>
    obtain ⟨k, h'⟩ := kv
    by_cases hk : k = c
    · simp [storeSet, storeGet, hk]
    · simp [storeSet, storeGet, hk, ih]

theorem freshHeap_getD_append (l : List (List String)) (x : List String) :
    (l ++ [x]).getD l.length [] = x := by
  induction l with
  | nil => rfl
  | cons a l ih => simp [ih]

theorem freshHeap_set_append (l : List (List String)) (x y : List String) :
    (l ++ [x]).set l.length y = l ++ [y] := by
  induction l with
  | nil => rfl
  | cons a l ih => simp [List.set, ih]

theorem digitChar_truthy (n : Nat) (h1 : n ≠ 0) (h2 : n < 10) :
    ((digitChar n).isDigit && decide (digitChar n ≠ '0')) = true := by
  interval_cases n <;> revert h1 <;> decide

theorem natLexCore_truthy (fuel n : Nat) (h0 : n ≠ 0) (hf : n < fuel) :
    (natLexCore fuel n).any (fun c => c.isDigit && c ≠ '0') = true := by
  induction fuel generalizing n with
  | zero => omega
  | succ fuel ih =>
    by_cases h10 : n < 10
    · simp only [natLexCore, h10, if_true, List.any_cons, List.any_nil, Bool.or_false]
      exact digitChar_truthy n h0 h10
    · have hdiv0 : n / 10 ≠ 0 := by
        have : 10 ≤ n := by omega
        have := Nat.one_le_div_iff (by omega : 0 < 10) |>.mpr this
        omega
      have hdivf : n / 10 < fuel := by
        have h1 : n / 10 < n := Nat.div_lt_self (by omega) (by omega)
        omega
      simp only [natLexCore, h10, if_false, List.any_append]
      exact Or.inl (ih (n / 10) hdiv0 hdivf) |> Bool.or_eq_true_iff.mpr

theorem natLex_truthy (n : Nat) (h : n ≠ 0) : numLexTruthy (natLex n) = true := by
  unfold numLexTruthy natLex
  have : (String.mk (natLexCore (n + 1) n)).toList = natLexCore (n + 1) n := rfl
  rw [this]
  exact natLexCore_truthy (n + 1) n h (by omega)

theorem isStrVal_eq (o : Option Json) (s : String) (h : isStrVal o s = true) :
    o = some (.str s) := by
  cases o with
  | none => simp [isStrVal] at h
  | some v => cases v <;> simp_all [isStrVal]

/-- Whether a possibly-absent value is a string. -/
def isStringField : Option Json → Bool
  | some (.str _) => true
  | _ => false

theorem strTruthyField_false_of_not_string (o : Option Json)
    (h : isStringField o = false) : strTruthyField o = false := by
  cases o with
  | none => rfl
  | some v => cases v <;> simp_all [isStringField, strTruthyField]

theorem reqTaskId_isSome_of_valid (body : Json) (h : validA2ARequest body = true) :
    ∃ v, reqTaskId body = some v := by
  unfold validA2ARequest at h
  cases hid : reqTaskId body with
  | none => rw [hid] at h; simp [jsTruthyOpt] at h
  | some v => exact ⟨v, rfl⟩

theorem derivedConvId_eq (body : Json) (v : Json) (h : reqTaskId body = some v) :
    derivedConvId body = "a2a-task-" ++ v.display := by
  simp [derivedConvId, h, jsDisplayU]

/-! ### Claim theorems -/

/-- C9: for the reasoning-engine output
`\x7b"tool":"mcp_calc","tool_input":\x7b"expression":"2+2"\x7d\x7d`, the
Parser yields a Directive with capability name `mcp_calc` (taken from the
`tool` alias) and arguments map `expression ↦ 2+2` (taken from the
`tool_input` alias). -/
theorem parser_yields_mcp_calc_directive :
    parseDirective "\x7b\"tool\":\"mcp_calc\",\"tool_input\":\x7b\"expression\":\"2+2\"\x7d\x7d" =
      some { capabilityName := "mcp_calc",
             arguments := Json.obj [("expression", Json.str "2+2")] } := by
  rfl

/-- C10: for every configuration and every ambient state, the served
AgentCard reports `capabilities.streaming`, `capabilities.pushNotifications`
and `capabilities.stateTransitionHistory` all `false` and the send task
endpoint `/a2a/message`, regardless of configuration contents; the read
leaves state untouched and two reads under the same configuration return
identical cards. -/
theorem agent_card_read_constant_and_pure (cfg : ServerConfig) (st st' : Store) :
    (handleAgentCardGet cfg st).1.capabilities =
      { streaming := false, pushNotifications := false, stateTransitionHistory := false } ∧
    (handleAgentCardGet cfg st).1.taskEndpointSend = "/a2a/message" ∧
    (handleAgentCardGet cfg st).2 = st ∧
    (handleAgentCardGet cfg st).1 = (handleAgentCardGet cfg st').1 :=
  ⟨rfl, rfl, rfl, rfl⟩

/-- C1: the Output Classifier never raises (it is a total function); for
every reasoning-engine output string that fails to parse as JSON, or
parses to a value exposing neither a string-valued `tool` field nor a
string-valued `action` field, classification yields Final — no directive
is produced — and the pipeline returns the original string unchanged as
the reply. -/
theorem classifier_final_on_unparseable_or_fieldless (s : String)
    (h : jsonParse s = none ∨
         ∃ v, jsonParse s = some v ∧ isStringField (jsField v "tool") = false ∧
              isStringField (jsField v "action") = false) :
    isToolCallJSON s = false ∧ parseDirective s = none ∧
      ∀ (eng : Engine) (post : PostOracle) (mcpNames : List String)
        (mcpInvoke : String → Json → Except String String)
        (freshTaskId : String) (st : Store) (u conv : String),
        eng conv u = .ok s →
        (processWithAgent eng post mcpNames mcpInvoke freshTaskId st u conv).1 =
          { isError := false, text := s } := by
  have hcls : isToolCallJSON s = false := by
    rcases h with hnone | ⟨v, hv, ht, ha⟩
    · simp [isToolCallJSON, hnone]
    · simp [isToolCallJSON, hv, strTruthyField_false_of_not_string _ ht,
        strTruthyField_false_of_not_string _ ha]
  refine ⟨hcls, ?_, ?_⟩
  · simp [parseDirective, hcls]
  · intro eng post mcpNames mcpInvoke ftid st u conv heng
    simp [processWithAgent, heng, hcls]

/-- Witness for C1 at a string that contains a directive-like substring
but fails to parse as JSON. -/
theorem classifier_final_witness :
    isToolCallJSON nonJsonChatter = false ∧ parseDirective nonJsonChatter = none ∧
      (processWithAgent chatterEngine timeoutPost [] okInvoke "task-1" [] "hi" "conv-1").1 =
        { isError := false, text := nonJsonChatter } := by
  have h := classifier_final_on_unparseable_or_fieldless nonJsonChatter (Or.inl (by rfl))
  exact ⟨h.1, h.2.1, h.2.2 chatterEngine timeoutPost [] okInvoke "task-1" [] "hi" "conv-1" rfl⟩

/-- An invalid tasks/send body: the task id is missing. -/
def invalidTaskBody : Json :=
  .obj [("task", .obj
    [("message", .obj
       [("parts", .arr [.obj [("type", .str "text"), ("content", .str "hi")]])])])]

/-- C6: for every inbound tasks/send request that fails validation (no
truthy task id, or no message part), the endpoint immediately returns a
failed Task with HTTP status 400, echoing the request's task id when a
truthy one is present and a freshly generated id otherwise; the reasoning
engine is not invoked and no network call is made. -/
theorem endpoint_rejects_invalid_request (eng : Engine) (post : PostOracle)
    (mcpNames : List String) (mcpInvoke : String → Json → Except String String)
    (ftid fvid : String) (st : Store) (body : Json)
    (h : validA2ARequest body = false) :
    (handleA2AMessage eng post mcpNames mcpInvoke ftid fvid st body).httpStatus = 400 ∧
    (handleA2AMessage eng post mcpNames mcpInvoke ftid fvid st body).resp.state = "failed" ∧
    (handleA2AMessage eng post mcpNames mcpInvoke ftid fvid st body).resp.text =
      "Invalid tasks/send request format." ∧
    (handleA2AMessage eng post mcpNames mcpInvoke ftid fvid st body).engineCalled = false ∧
    (handleA2AMessage eng post mcpNames mcpInvoke ftid fvid st body).posts = [] ∧
    (handleA2AMessage eng post mcpNames mcpInvoke ftid fvid st body).resp.id =
      (if jsTruthyOpt (reqTaskId body) then (reqTaskId body).getD .null
       else .str fvid) := by
  simp [handleA2AMessage, h]

/-- Witness for C6 at a request lacking a task id. -/
theorem endpoint_rejects_invalid_request_witness :
    (handleA2AMessage chatterEngine timeoutPost [] okInvoke "task-1" "gen-1" [] invalidTaskBody).httpStatus = 400 ∧
    (handleA2AMessage chatterEngine timeoutPost [] okInvoke "task-1" "gen-1" [] invalidTaskBody).resp.state = "failed" ∧
    (handleA2AMessage chatterEngine timeoutPost [] okInvoke "task-1" "gen-1" [] invalidTaskBody).engineCalled = false ∧
    (handleA2AMessage chatterEngine timeoutPost [] okInvoke "task-1" "gen-1" [] invalidTaskBody).resp.id =
      Json.str "gen-1" := by
  have h := endpoint_rejects_invalid_request chatterEngine timeoutPost [] okInvoke
    "task-1" "gen-1" [] invalidTaskBody (by rfl)
  refine ⟨h.1, h.2.1, h.2.2.2.1, ?_⟩
  rw [h.2.2.2.2.2]
  rfl

theorem handle_completed_aux (eng : Engine) (post : PostOracle)
    (mcpNames : List String) (mcpInvoke : String → Json → Except String String)
    (ftid fvid : String) (st : Store) (body : Json) (inp out : String)
    (hvalid : validA2ARequest body = true)
    (hext : extractA2AInput body = .ok inp)
    (heng : eng (derivedConvId body) inp = .ok out) :
    (handleA2AMessage eng post mcpNames mcpInvoke ftid fvid st body).resp.state = "completed" ∧
    (handleA2AMessage eng post mcpNames mcpInvoke ftid fvid st body).httpStatus = 200 := by
  obtain ⟨v, hid⟩ := reqTaskId_isSome_of_valid body hvalid
  have hconv : derivedConvId body = "a2a-task-" ++ ((reqTaskId body).getD Json.null).display := by
    rw [derivedConvId_eq body v hid, hid]
    rfl
  rw [hconv] at heng
  by_cases htc : isToolCallJSON out <;>
    simp [handleA2AMessage, hvalid, hext, processWithAgent, heng, htc]

/-- C2: for every inbound delegated task that passes validation and whose
reasoning-engine invocation returns a reply, the response Task has status
state `completed` — for every capability outcome whatsoever (unknown
capability, missing parameters, network failure on the routed call), the
failure text having been folded into the reply; and a `failed` status
state arises only from a validation or extraction fault or from a
reasoning-engine fault. -/
theorem endpoint_completed_on_engine_reply (eng : Engine) (post : PostOracle)
    (mcpNames : List String) (mcpInvoke : String → Json → Except String String)
    (ftid fvid : String) (st : Store) (body : Json) :
    (∀ inp out, validA2ARequest body = true →
        extractA2AInput body = .ok inp →
        eng (derivedConvId body) inp = .ok out →
        (handleA2AMessage eng post mcpNames mcpInvoke ftid fvid st body).resp.state = "completed")
  ∧ ((handleA2AMessage eng post mcpNames mcpInvoke ftid fvid st body).resp.state = "failed" →
        validA2ARequest body = false ∨ extractA2AInput body = .thrownNoPart ∨
        extractA2AInput body = .thrownType ∨
        ∃ inp m, extractA2AInput body = .ok inp ∧ eng (derivedConvId body) inp = .err m) := by
  constructor
  · intro inp out hvalid hext heng
    exact (handle_completed_aux eng post mcpNames mcpInvoke ftid fvid st body inp out
      hvalid hext heng).1
  · intro hfail
    by_cases hvalid : validA2ARequest body = true
    · cases hext : extractA2AInput body with
      | thrownNoPart => exact Or.inr (Or.inl rfl)
      | thrownType => exact Or.inr (Or.inr (Or.inl rfl))
      | ok inp =>
        cases heng : eng (derivedConvId body) inp with
        | err m => exact Or.inr (Or.inr (Or.inr ⟨inp, m, rfl, heng⟩))
        | ok out =>
          have hc := (handle_completed_aux eng post mcpNames mcpInvoke ftid fvid st body
            inp out hvalid hext heng).1
          rw [hc] at hfail
          exact absurd hfail (by decide)
    · exact Or.inl (by revert hvalid; cases validA2ARequest body <;> simp)

/-- Witness for C2: a validated task whose engine reply is a delegation
directive and whose routed capability call times out still completes. -/
theorem endpoint_completed_on_engine_reply_witness :
    (handleA2AMessage directiveEngine timeoutPost [] okInvoke "task-1" "gen-1" []
      sampleTaskBody).resp.state = "completed" :=
  (endpoint_completed_on_engine_reply directiveEngine timeoutPost [] okInvoke
    "task-1" "gen-1" [] sampleTaskBody).1 "Ask peer to calculate 2+2" askPeerDirective
    (by rfl) (by rfl) (by rfl)

/-- C3: for every inbound delegated task accepted by validation, on every
exit of the endpoint — the completed exit, the engine-fault failed exit
and the extraction-fault failed exit — the transient conversation derived
from the task id ends with empty history: starting from a state in which
the derived conversation has no recorded history (it is created by this
very request), the history is empty again after the response; moreover on
every path that invokes the engine the release is unconditional, emptying
the derived history whatever it held before. -/
theorem endpoint_releases_derived_conversation (eng : Engine) (post : PostOracle)
    (mcpNames : List String) (mcpInvoke : String → Json → Except String String)
    (ftid fvid : String) (st : Store) (body : Json)
    (hvalid : validA2ARequest body = true) :
    (historyAt st (derivedConvId body) = [] →
      historyAt (handleA2AMessage eng post mcpNames mcpInvoke ftid fvid st body).store
        (derivedConvId body) = [])
  ∧ (∀ inp, extractA2AInput body = .ok inp →
      historyAt (handleA2AMessage eng post mcpNames mcpInvoke ftid fvid st body).store
        (derivedConvId body) = []) := by
  obtain ⟨v, hid⟩ := reqTaskId_isSome_of_valid body hvalid
  have hconv : derivedConvId body = "a2a-task-" ++ ((reqTaskId body).getD Json.null).display := by
    rw [derivedConvId_eq body v hid, hid]
    rfl
  have herase : ∀ inp, extractA2AInput body = .ok inp →
      historyAt (handleA2AMessage eng post mcpNames mcpInvoke ftid fvid st body).store
        (derivedConvId body) = [] := by
    intro inp hext
    rw [hconv]
    simp only [handleA2AMessage, hvalid, hext, Bool.not_true, not_true_eq_false, if_false,
      Bool.true_eq_false, reduceIte]
    split <;> exact historyAt_erase _ _
  refine ⟨?_, herase⟩
  intro hinit
  cases hext : extractA2AInput body with
  | thrownNoPart =>
    simpa [handleA2AMessage, hvalid, hext] using hinit
  | thrownType =>
    simpa [handleA2AMessage, hvalid, hext] using hinit
  | ok inp => exact herase inp hext

/-- Witness for C3: the sample task, processed from an empty store with a
successful delegation, leaves the derived conversation history empty. -/
theorem endpoint_releases_derived_conversation_witness :
    historyAt (handleA2AMessage directiveEngine okPost [] okInvoke "task-1" "gen-1" []
      sampleTaskBody).store (derivedConvId sampleTaskBody) = [] :=
  (endpoint_releases_derived_conversation directiveEngine okPost [] okInvoke
    "task-1" "gen-1" [] sampleTaskBody (by rfl)).1 (by rfl)


/-- A remote-delegation directive that lacks the task input payload. -/
def missingParamsDirective : String :=
  "\x7b\"tool\":\"ask_another_a2a_agent\",\"targetAgentId\":\"http://peer\"\x7d"

/-- The parsed value of `missingParamsDirective`. -/
def missingParamsDirVal : Json :=
  .obj [("tool", .str "ask_another_a2a_agent"), ("targetAgentId", .str "http://peer")]

theorem executeToolFromJSON_ask (post : PostOracle) (mcpNames : List String)
    (mcpInvoke : String → Json → Except String String) (ftid s : String)
    (fs : List (String × Json))
    (hp : jsonParse s = some (Json.obj fs))
    (hname : resolvedToolName (Json.obj fs) = some (.str "ask_another_a2a_agent")) :
    executeToolFromJSON post mcpNames mcpInvoke ftid s =
      delegateToAgent post ftid (jsField (Json.obj fs) "targetAgentId")
        (jsField (Json.obj fs) "taskInput")
        "Error: Missing required parameters for ask_another_a2a_agent" := by
  simp [executeToolFromJSON, hp, hname]

theorem executeToolFromJSONAgent_ask (post : PostOracle) (toolNames : List String)
    (invokeTool : String → Json → Except String String) (ftid s : String)
    (fs : List (String × Json))
    (hp : jsonParse s = some (Json.obj fs))
    (hname : resolvedToolName (Json.obj fs) = some (.str "ask_another_a2a_agent"))
    (hmem : toolNames.contains "ask_another_a2a_agent" = true) :
    executeToolFromJSONAgent post toolNames invokeTool ftid s =
      delegateToAgent post ftid
        (if isStrVal (jsField (Json.obj fs) "targetAgentId") "http://agent1.localhost"
         then some (Json.str "http://agent2.localhost")
         else jsField (Json.obj fs) "targetAgentId")
        (jsField (Json.obj fs) "taskInput")
        "Error: Missing required parameters for ask_another_a2a_agent (targetAgentId, taskInput)" := by
  have hmem2 : "ask_another_a2a_agent" ∈ toolNames := by simpa using hmem
  simp [executeToolFromJSONAgent, hp, hname, hmem2, jsTruthyOpt, Json.truthy]

/-- C7: for every directive whose resolved capability name is the
reserved remote-delegation identifier, if the arguments lack a truthy
target-agent identifier or a truthy task input, both routers return the
textual missing-required-parameters error, throw nothing (they are total
functions), and perform no network call. -/
theorem router_missing_params_nonfatal :
    (∀ (post : PostOracle) (mcpNames : List String)
       (mcpInvoke : String → Json → Except String String) (ftid s : String) (v : Json),
       jsonParse s = some v →
       resolvedToolName v = some (.str "ask_another_a2a_agent") →
       (jsTruthyOpt (jsField v "targetAgentId") = false ∨
        jsTruthyOpt (jsField v "taskInput") = false) →
       executeToolFromJSON post mcpNames mcpInvoke ftid s =
         { text := "Error: Missing required parameters for ask_another_a2a_agent",
           posts := [] })
  ∧ (∀ (post : PostOracle) (toolNames : List String)
       (invokeTool : String → Json → Except String String) (ftid s : String) (v : Json),
       jsonParse s = some v →
       resolvedToolName v = some (.str "ask_another_a2a_agent") →
       toolNames.contains "ask_another_a2a_agent" = true →
       (jsTruthyOpt (jsField v "targetAgentId") = false ∨
        jsTruthyOpt (jsField v "taskInput") = false) →
       executeToolFromJSONAgent post toolNames invokeTool ftid s =
         { text := "Error: Missing required parameters for ask_another_a2a_agent (targetAgentId, taskInput)",
           posts := [] }) := by
  constructor
  · intro post mcpNames mcpInvoke ftid s v hp hname hmiss
    cases v
    case obj fs =>
      rw [executeToolFromJSON_ask post mcpNames mcpInvoke ftid s fs hp hname]
      rcases hmiss with h | h <;> simp [delegateToAgent, h]
    all_goals simp [resolvedToolName, jsField, jsOrOpt, jsTruthyOpt] at hname
  · intro post toolNames invokeTool ftid s v hp hname hmem hmiss
    cases v
    case obj fs =>
      rw [executeToolFromJSONAgent_ask post toolNames invokeTool ftid s fs hp hname hmem]
      by_cases hred : isStrVal (jsField (Json.obj fs) "targetAgentId") "http://agent1.localhost"
      · have htgt := isStrVal_eq _ _ hred
        rcases hmiss with h | h
        · rw [htgt] at h
          simp [jsTruthyOpt, Json.truthy] at h
        · simp [delegateToAgent, hred, h]
      · rcases hmiss with h | h <;> simp [delegateToAgent, hred, h]
    all_goals simp [resolvedToolName, jsField, jsOrOpt, jsTruthyOpt] at hname

/-- Witness for C7 at a delegation directive lacking the task input:
both routers report missing parameters and neither performs a POST. -/
theorem router_missing_params_nonfatal_witness :
    executeToolFromJSON timeoutPost [] okInvoke "task-1" missingParamsDirective =
      { text := "Error: Missing required parameters for ask_another_a2a_agent",
        posts := [] } ∧
    executeToolFromJSONAgent timeoutPost ["ask_another_a2a_agent"] okInvoke "task-1"
        missingParamsDirective =
      { text := "Error: Missing required parameters for ask_another_a2a_agent (targetAgentId, taskInput)",
        posts := [] } :=
  ⟨router_missing_params_nonfatal.1 timeoutPost [] okInvoke "task-1"
      missingParamsDirective missingParamsDirVal (by rfl) (by rfl) (Or.inr (by rfl)),
   router_missing_params_nonfatal.2 timeoutPost ["ask_another_a2a_agent"] okInvoke "task-1"
      missingParamsDirective missingParamsDirVal (by rfl) (by rfl) (by rfl) (Or.inr (by rfl))⟩

/-- The directive by which agent2 (own configured identifier
http://agent2.localhost) targets its own identifier. -/
def agent2SelfDirective : String :=
  "\x7b\"tool\":\"ask_another_a2a_agent\",\"targetAgentId\":\"http://agent2.localhost\",\"taskInput\":\"2+2\"\x7d"

/-- Counterexample to C4: under agent2\x27s shipped configuration the
resolved target identifier equals the agent\x27s own configured identifier
`http://agent2.localhost`, yet the routing layer does not substitute the
configured peer (`http://agent1.localhost`): the delegation is executed
against the agent itself, because the substitution compares against the
hard-coded string `http://agent1.localhost`, not against the configured
own identifier. -/
theorem router_no_substitution_for_agent2_self_target :
    (executeToolFromJSONAgent timeoutPost ["mcp_calculator", "ask_another_a2a_agent"]
        okInvoke "task-1" agent2SelfDirective).posts = [agent2BaseUrl] ∧
    agent2BaseUrl ≠ agent2KnownPeerBaseUrl := by
  exact ⟨rfl, by decide⟩

/-- The parsed value of `agent1SelfDirective`. -/
def agent1SelfDirVal : Json :=
  .obj [("tool", .str "ask_another_a2a_agent"),
        ("targetAgentId", .str "http://agent1.localhost"),
        ("taskInput", .str "2+2")]

/-- The directive by which agent1 (own configured identifier
http://agent1.localhost) targets its own identifier. -/
def agent1SelfDirective : String :=
  "\x7b\"tool\":\"ask_another_a2a_agent\",\"targetAgentId\":\"http://agent1.localhost\",\"taskInput\":\"2+2\"\x7d"

/-- The parsed value of `askPeerDirective`. -/
def askPeerDirVal : Json :=
  .obj [("tool", .str "ask_another_a2a_agent"),
        ("targetAgentId", .str "http://peer"),
        ("taskInput", .str "2+2")]

/-- C4 as amended: the agent-module router substitutes a target only when
it equals the hard-coded string `http://agent1.localhost` — which is
agent1\x27s shipped configured own identifier — replacing it by the
hard-coded `http://agent2.localhost` — agent1\x27s shipped configured
peer — and then executes the delegation against that peer rather than
rejecting the call; under any other configured own identifier a
self-targeted delegation is not substituted (see the counterexample), and
the direct-dispatch router of src/server.ts performs no substitution at
all, always posting to the directive\x27s own resolved target. -/
theorem router_substitutes_only_hardcoded_agent1 :
    (∀ (post : PostOracle) (toolNames : List String)
       (invokeTool : String → Json → Except String String) (ftid s : String) (v : Json),
       jsonParse s = some v →
       resolvedToolName v = some (.str "ask_another_a2a_agent") →
       toolNames.contains "ask_another_a2a_agent" = true →
       jsField v "targetAgentId" = some (.str agent1BaseUrl) →
       jsTruthyOpt (jsField v "taskInput") = true →
       (executeToolFromJSONAgent post toolNames invokeTool ftid s).posts =
         [agent1KnownPeerBaseUrl])
  ∧ (∀ (post : PostOracle) (mcpNames : List String)
       (mcpInvoke : String → Json → Except String String) (ftid s : String)
       (v : Json) (tgt : String),
       jsonParse s = some v →
       resolvedToolName v = some (.str "ask_another_a2a_agent") →
       jsField v "targetAgentId" = some (.str tgt) → tgt ≠ "" →
       jsTruthyOpt (jsField v "taskInput") = true →
       (executeToolFromJSON post mcpNames mcpInvoke ftid s).posts = [tgt]) := by
  constructor
  · intro post toolNames invokeTool ftid s v hp hname hmem htarget hinput
    cases v
    case obj fs =>
      rw [executeToolFromJSONAgent_ask post toolNames invokeTool ftid s fs hp hname hmem]
      have hred : isStrVal (jsField (Json.obj fs) "targetAgentId") "http://agent1.localhost" = true := by
        rw [htarget]; rfl
      have htr : jsTruthyOpt (some (Json.str "http://agent2.localhost")) = true := rfl
      simp [delegateToAgent, hred, hinput, htr, jsDisplayU, Json.display,
        agent1KnownPeerBaseUrl]
    all_goals simp [resolvedToolName, jsField, jsOrOpt, jsTruthyOpt] at hname
  · intro post mcpNames mcpInvoke ftid s v tgt hp hname htarget htne hinput
    cases v
    case obj fs =>
      rw [executeToolFromJSON_ask post mcpNames mcpInvoke ftid s fs hp hname]
      have htr : jsTruthyOpt (some (Json.str tgt)) = true := by
        simp [jsTruthyOpt, Json.truthy, htne]
      rw [htarget]
      simp [delegateToAgent, hinput, htr, jsDisplayU, Json.display]
    all_goals simp [resolvedToolName, jsField, jsOrOpt, jsTruthyOpt] at hname

/-- Witness for C4 as amended: agent1\x27s self-targeted delegation is
posted to the hard-coded peer, and a delegation to an ordinary peer is
posted to that peer unchanged. -/
theorem router_substitutes_only_hardcoded_agent1_witness :
    (executeToolFromJSONAgent timeoutPost ["ask_another_a2a_agent"] okInvoke "task-1"
        agent1SelfDirective).posts = [agent1KnownPeerBaseUrl] ∧
    (executeToolFromJSON timeoutPost [] okInvoke "task-1" askPeerDirective).posts =
      ["http://peer"] :=
  ⟨router_substitutes_only_hardcoded_agent1.1 timeoutPost ["ask_another_a2a_agent"]
      okInvoke "task-1" agent1SelfDirective agent1SelfDirVal (by rfl) (by rfl) (by rfl)
      (by rfl) (by rfl),
   router_substitutes_only_hardcoded_agent1.2 timeoutPost [] okInvoke "task-1"
      askPeerDirective askPeerDirVal "http://peer" (by rfl) (by rfl) (by rfl)
      (by decide) (by rfl)⟩

theorem historyAt_set (st : Store) (c : String) (h : List String) :
    historyAt (storeSet st c h) c = h := by
  simp [historyAt, storeGet_set]

/-- The persistent backend selected but misconfigured: no redis URL. -/
def redisMisconfig : MemConfig := { type := .redis, redisUrl := none }

/-- The transient in-process memory configuration. -/
def memConfigMemory : MemConfig := { type := .memory, redisUrl := none }

/-- The empty memory-manager state. -/
def emptyMem : MemState := { store := [], freshHeap := [], redis := [] }

/-- Counterexample to C5: with the persistent backend configured but
failing (no URL — a misconfiguration, one of the claimed backend
failures), getOrCreate falls back to a fresh, unkeyed in-process history
rather than one keyed by the conversation id: two calls for the same id
return distinct handles, and a message appended through the first is
invisible when reading through the second. -/
theorem memory_fallback_not_keyed_by_id :
    getMemoryForConversationE redisMisconfig "conv-1" emptyMem =
      .ok (.localFresh 0, { store := [], freshHeap := [[]], redis := [] }) ∧
    getMemoryForConversationE redisMisconfig "conv-1"
        { store := [], freshHeap := [[]], redis := [] } =
      .ok (.localFresh 1, { store := [], freshHeap := [[], []], redis := [] }) ∧
    memAppend true { store := [], freshHeap := [[], []], redis := [] }
        (.localFresh 0) "m" =
      .ok { store := [], freshHeap := [["m"], []], redis := [] } ∧
    memRead true { store := [], freshHeap := [["m"], []], redis := [] }
        (.localFresh 1) = .ok [] ∧
    ChatHandle.localFresh 0 ≠ ChatHandle.localFresh 1 :=
  ⟨rfl, rfl, rfl, rfl, by decide⟩

/-- C5 as amended: getOrCreate never raises — every throwing operation in
it is wrapped, so it returns a handle for every configuration and state.
When the redis construction fails (missing URL) the fallback is a fresh
unkeyed in-process history, allocated per call rather than keyed by the
id (see the counterexample); in transient mode the handle is the store
entry keyed by the id.  Every returned handle supports append and read —
append then read yields the appended message — provided a redis-backed
handle finds the backend reachable at use time: construction performs no
reachability check, so a configured-but-unreachable backend surfaces its
connection failure from append/read, not from getOrCreate. -/
theorem getOrCreate_never_raises_and_handle_usable (cfg : MemConfig)
    (conv : String) (st : MemState) :
    (∃ h st2, getMemoryForConversationE cfg conv st = .ok (h, st2)) ∧
    (∀ h st2 redisUp m,
       getMemoryForConversationE cfg conv st = .ok (h, st2) →
       (cfg.type = .redis → cfg.redisUrl ≠ none → redisUp = true) →
       ∃ pre st3, memRead redisUp st2 h = .ok pre ∧
         memAppend redisUp st2 h m = .ok st3 ∧
         memRead redisUp st3 h = .ok (pre ++ [m])) := by
  cases cfg with
  | mk ty url =>
    cases ty with
    | redis =>
      cases url with
      | none =>
        constructor
        · exact ⟨_, _, rfl⟩
        · intro h st2 redisUp m heq _
          simp only [getMemoryForConversationE, createRedisChatMessageHistoryE,
            createRedisBody, tryCatchE, Except.ok.injEq, Prod.mk.injEq] at heq
          obtain ⟨hh, hst⟩ := heq
          subst hh
          subst hst
          refine ⟨[], { st with freshHeap := st.freshHeap ++ [[m]] }, ?_, ?_, ?_⟩
          · simp [memRead, freshHeap_getD_append]
          · simp [memAppend, freshHeap_getD_append, freshHeap_set_append]
          · simp [memRead, freshHeap_getD_append]
      | some u =>
        constructor
        · exact ⟨_, _, rfl⟩
        · intro h st2 redisUp m heq hprov
          have hup : redisUp = true := hprov rfl (by simp)
          subst hup
          simp only [getMemoryForConversationE, createRedisChatMessageHistoryE,
            createRedisBody, tryCatchE, Except.ok.injEq, Prod.mk.injEq] at heq
          obtain ⟨hh, hst⟩ := heq
          subst hh
          subst hst
          refine ⟨historyAt st.redis conv, _, rfl, rfl, ?_⟩
          simp [memRead, historyAt_set]
    | memory =>
      cases hg : storeGet st.store conv with
      | some hist =>
        constructor
        · exact ⟨.localKeyed conv, st, by simp [getMemoryForConversationE, hg]⟩
        · intro h st2 redisUp m heq _
          simp only [getMemoryForConversationE, hg, Except.ok.injEq, Prod.mk.injEq] at heq
          obtain ⟨hh, hst⟩ := heq
          subst hh
          subst hst
          refine ⟨historyAt st.store conv, _, rfl, rfl, ?_⟩
          simp [memRead, historyAt_set]
      | none =>
        constructor
        · exact ⟨.localKeyed conv, { st with store := storeSet st.store conv [] },
            by simp [getMemoryForConversationE, hg]⟩
        · intro h st2 redisUp m heq _
          simp only [getMemoryForConversationE, hg, Except.ok.injEq, Prod.mk.injEq] at heq
          obtain ⟨hh, hst⟩ := heq
          subst hh
          subst hst
          refine ⟨[], _, ?_, rfl, ?_⟩
          · simp [memRead, historyAt_set]
          · simp [memRead, memAppend, historyAt_set]

/-- Witness for C5 as amended, in transient mode with a keyed handle. -/
theorem getOrCreate_never_raises_witness :
    ∃ pre st3,
      memRead true { store := [("conv-1", [])], freshHeap := [], redis := [] }
        (.localKeyed "conv-1") = .ok pre ∧
      memAppend true { store := [("conv-1", [])], freshHeap := [], redis := [] }
        (.localKeyed "conv-1") "m" = .ok st3 ∧
      memRead true st3 (.localKeyed "conv-1") = .ok (pre ++ ["m"]) :=
  (getOrCreate_never_raises_and_handle_usable memConfigMemory "conv-1" emptyMem).2
    (.localKeyed "conv-1") { store := [("conv-1", [])], freshHeap := [], redis := [] }
    true "m" (by rfl) (fun hty _ => absurd hty (by decide))

/-- Reduction of `composeA2ASummary` once a non-null status value is at
hand. -/
theorem composeA2ASummary_unfold (target : String) (task sv : Json)
    (hst : jsField task "status" = some sv) (hsv : sv ≠ Json.null) :
    composeA2ASummary target task = composeSummaryBody target task sv := by
  cases task with
  | null => simp [jsField] at hst
  | bool b => simp [jsField] at hst
  | num l => simp [jsField] at hst
  | str s => simp [jsField] at hst
  | arr xs => simp [jsField] at hst
  | obj fs =>
    have hred : composeA2ASummary target (Json.obj fs) =
        (match jsField (Json.obj fs) "status" with
         | none => none
         | some Json.null => none
         | some sv => composeSummaryBody target (Json.obj fs) sv) := rfl
    rw [hred, hst]
    cases sv with
    | null => exact absurd rfl hsv
    | bool b => rfl
    | num l => rfl
    | str s => rfl
    | arr xs => rfl
    | obj f2 => rfl

/-- Modelled from the claim (C8): the summary as the claim words it — the
prefix followed by the content of the first text part when one exists,
else the JSON serialization of the first part\x27s content when the
message has parts, else the artifact count when artifacts are present. -/
def claimedSummary (target : String) (task : Json) : Option String :=
  match task with
  | .null => none
  | tv =>
    match jsField tv "status" with
    | none => none
    | some .null => none
    | some sv =>
      let base := "Response from " ++ target ++ " (" ++
        jsDisplayU (jsField sv "state") ++ "): "
      match optChainField (jsField sv "message") "parts" with
      | some (.arr (p0 :: ps)) =>
        some (base ++
          match (p0 :: ps).find? isTextPart with
          | some p => jsDisplayU (jsField p "content")
          | none => jsStringifyU (jsField p0 "content"))
      | _ =>
        match jsField tv "artifacts" with
        | some (.arr (a0 :: arts)) =>
          some (base ++ "Artifacts: " ++ natLex (a0 :: arts).length)
        | _ => some base

/-- A well-formed peer response whose message has a data part first and a
text part whose content is null. -/
def nullContentTask : Json :=
  .obj [("id", .str "p1"),
        ("status", .obj
          [("state", .str "completed"),
           ("message", .obj
             [("role", .str "assistant"),
              ("parts", .arr
                [.obj [("type", .str "data"), ("content", .num "42")],
                 .obj [("type", .str "text"), ("content", .null)]])])])]

/-- Counterexample to C8: on a successful exchange whose response message
contains a text part with null content, the claim prescribes that text
part\x27s content, but the code JSON-serializes the FIRST part\x27s
content whenever the found text part\x27s content is null or undefined,
so the composed summary differs from the claimed one. -/
theorem summary_differs_on_nullish_text_content :
    composeA2ASummary "http://peer" nullContentTask =
      some "Response from http://peer (completed): 42" ∧
    claimedSummary "http://peer" nullContentTask =
      some "Response from http://peer (completed): null" ∧
    composeA2ASummary "http://peer" nullContentTask ≠
      claimedSummary "http://peer" nullContentTask :=
  ⟨rfl, rfl, by decide⟩

/-- C8 as amended: for every successful sendTask exchange whose response
Task carries a non-null status value, the returned text equals the prefix
`Response from <target> (<state>): ` followed by (i) the display of the
content of the first text part when one exists and its content is
neither null nor undefined, (ii) the JSON serialization of the first
part\x27s content when the message has parts but no text part with
non-nullish content, and (iii) the artifact count when the parts list is
absent or empty and artifacts are present. -/
theorem summary_format_amended (target : String) (task sv : Json)
    (hst : jsField task "status" = some sv) (hsv : sv ≠ Json.null) :
    (∀ ps p c, optChainField (jsField sv "message") "parts" = some (.arr ps) →
        ps.find? isTextPart = some p → jsField p "content" = some c →
        c ≠ Json.null →
        composeA2ASummary target task =
          some ("Response from " ++ target ++ " (" ++
            jsDisplayU (jsField sv "state") ++ "): " ++ c.display))
  ∧ (∀ p0 ps, optChainField (jsField sv "message") "parts" = some (.arr (p0 :: ps)) →
        ((p0 :: ps).find? isTextPart = none ∨
         (∃ p, (p0 :: ps).find? isTextPart = some p ∧
            (jsField p "content" = none ∨ jsField p "content" = some Json.null))) →
        composeA2ASummary target task =
          some ("Response from " ++ target ++ " (" ++
            jsDisplayU (jsField sv "state") ++ "): " ++
            jsStringifyU (jsField p0 "content")))
  ∧ (∀ a0 arts,
        jsTruthyOpt ((optChainField (jsField sv "message") "parts").bind jsLengthVal) =
          false →
        jsField task "artifacts" = some (.arr (a0 :: arts)) →
        composeA2ASummary target task =
          some ("Response from " ++ target ++ " (" ++
            jsDisplayU (jsField sv "state") ++ "): " ++ "Artifacts: " ++
            natLex (a0 :: arts).length)) := by
  rw [composeA2ASummary_unfold target task sv hst hsv]
  refine ⟨?_, ?_, ?_⟩
  · intro ps p c hparts hfind hcontent hcnull
    cases ps with
    | nil => simp at hfind
    | cons p0 ps2 =>
      have hlen : jsTruthyOpt ((some (Json.arr (p0 :: ps2))).bind jsLengthVal) = true := by
        simp [jsLengthVal, jsTruthyOpt, Json.truthy]
        exact natLex_truthy _ (by omega)
      cases c with
      | null => exact absurd rfl hcnull
      | bool b => simp only [composeSummaryBody, hparts, hlen, if_true, hfind, hcontent]
      | num l => simp only [composeSummaryBody, hparts, hlen, if_true, hfind, hcontent]
      | str s => simp only [composeSummaryBody, hparts, hlen, if_true, hfind, hcontent]
      | arr xs => simp only [composeSummaryBody, hparts, hlen, if_true, hfind, hcontent]
      | obj f2 => simp only [composeSummaryBody, hparts, hlen, if_true, hfind, hcontent]
  · intro p0 ps hparts hdisj
    have hlen : jsTruthyOpt ((some (Json.arr (p0 :: ps))).bind jsLengthVal) = true := by
      simp [jsLengthVal, jsTruthyOpt, Json.truthy]
      exact natLex_truthy _ (by omega)
    rcases hdisj with hnone | ⟨p, hfind, hc⟩
    · simp only [composeSummaryBody, hparts, hlen, if_true, hnone]
    · rcases hc with hc | hc <;>
        simp only [composeSummaryBody, hparts, hlen, if_true, hfind, hc]
  · intro a0 arts hlenf hart
    have hnl : numLexTruthy (natLex (a0 :: arts).length) = true :=
      natLex_truthy _ (by simp)
    simp only [composeSummaryBody, hlenf, Bool.false_eq_true, if_false, hart]
    simp only [Option.bind, jsLengthVal, jsTruthyOpt, Json.truthy, hnl, if_true,
      jsDisplayU, Json.display]

/-- Witness for C8 as amended at the end-to-end example response. -/
theorem summary_format_amended_witness :
    composeA2ASummary "http://peer" peerTaskOK =
      some "Response from http://peer (completed): 4" := by
  have h := (summary_format_amended "http://peer" peerTaskOK peerTaskStatusOK rfl
      (fun hh => Json.noConfusion hh)).1 [peerTextPart] peerTextPart (Json.str "4")
      (by rfl) (by rfl) (by rfl) (fun hh => Json.noConfusion hh)
  exact h

end A2AMCP
